import Mathlib

/-!
Shallow embedding of the terminal front-end's session/command lifecycle
manager (the `App` component of the source: session state, command
execution with cancellation, command history, tab management, and
restore-from-storage). Pure data is embedded directly; the React state
cell updates are modelled as explicit state passing on an `AppState`
record, and the single asynchronous suspension point (the request to the
execution service) is modelled by splitting `executeCommand` into a
submission phase and a resumption phase joined by an explicit run
function.
-/

set_option autoImplicit false

/-- Entry kinds, from the `type` field of `TerminalEntry` in the source:
`'command' | 'output' | 'error'`. -/
inductive EntryType where
  | command
  | output
  | error
deriving DecidableEq, Repr

/-- Source `TerminalEntry`: `{ type, content }`. -/
structure TerminalEntry where
  type : EntryType
  content : String
deriving DecidableEq, Repr

/-- Source `TerminalSession`: `{ id, name, history }`. -/
structure TerminalSession where
  id : String
  name : String
  history : List TerminalEntry
deriving DecidableEq, Repr

/-- The mutable component state of `App` that the lifecycle manager
touches: the `useState` cells `sessions`, `activeSessionId`,
`currentCommand`, `isLoading`, `commandHistory`, `historyIndex`, and the
mutable ref `abortControllerRef`.  An abort controller is modelled as a
`Bool` recording whether `abort()` has been called on it, so
`abortController = some b` means the ref is non-null and `b` says the
controller is aborted; `none` is a null ref. -/
structure AppState where
  sessions : List TerminalSession
  activeSessionId : String
  currentCommand : String
  isLoading : Bool
  commandHistory : List String
  historyIndex : Int
  abortController : Option Bool
deriving DecidableEq, Repr

/-- Source `updateSessionHistory(sessionId, newEntry)`: append one entry to
the history of every session whose id matches `sessionId`. -/
def updateSessionHistory (sessionId : String) (newEntry : TerminalEntry)
    (st : AppState) : AppState :=
  { st with sessions := st.sessions.map (fun session =>
      if session.id == sessionId
      then { session with history := session.history ++ [newEntry] }
      else session) }

/-- Source `clearTerminal()`: empty the history of the session whose id is
the active one. -/
def clearTerminal (st : AppState) : AppState :=
  { st with sessions := st.sessions.map (fun session =>
      if session.id == st.activeSessionId
      then { session with history := [] }
      else session) }

/-- Source `cancelCommand()`: abort the in-flight controller if the ref is
non-null, append a `^C` error entry to the active session, clear the busy
flag and the pending input.  Note the ref itself is not set back to null
here. -/
def cancelCommand (st : AppState) : AppState :=
  let st1 :=
    match st.abortController with
    | some _ => { st with abortController := some true }
    | none => st
  let st2 := updateSessionHistory st1.activeSessionId
    { type := EntryType.error, content := "^C" } st1
  { st2 with isLoading := false, currentCommand := "" }

/-- Source history updater inside `executeCommand`:
`[command, ...prev.filter(cmd => cmd !== command)].slice(0, 50)`. -/
def pushHistory (command : String) (prev : List String) : List String :=
  (command :: prev.filter (fun cmd => cmd != command)).take 50

/-- JS `String.prototype.trim()` over the logical character list of a
string: drop leading whitespace, then drop trailing whitespace (written
structurally so that it computes by reduction). -/
def dropLeadingWs : List Char → List Char
  | [] => []
  | c :: cs => if c.isWhitespace then dropLeadingWs cs else c :: cs

/-- Removal of leading and trailing whitespace, the meaning of the
source's `jsTrim command()`. -/
def jsTrim (s : String) : String :=
  String.mk ((dropLeadingWs (dropLeadingWs s.data).reverse).reverse)

/-- Result of the submission phase of `executeCommand`: either the early
returns (empty input or no active session; the local `clear` command), or
a pending request carrying the session id and command captured by the
closure at submission time. -/
inductive SubmitResult where
  | noop
  | cleared
  | pending (sid : String) (command : String)
deriving DecidableEq, Repr

/-- State after the pre-fetch mutations of source `executeCommand` on the
non-empty, non-`clear` path: push onto the command history and reset the
history cursor, append the `command` entry to the active session, clear
the input, set the busy flag, install a fresh (unaborted) controller. -/
def submitState (command : String) (st : AppState) : AppState :=
  let st1 := { st with
    commandHistory := pushHistory command st.commandHistory,
    historyIndex := -1 }
  let st2 := updateSessionHistory st.activeSessionId
    { type := EntryType.command, content := "$ " ++ command } st1
  { st2 with
    currentCommand := "", isLoading := true, abortController := some false }

/-- Submission phase of source `executeCommand(command)`: everything up to
the `fetch` call.  Guards empty/`clear` input, then performs the
`submitState` mutations and leaves a pending request carrying the session
id captured at submission time. -/
def executeCommandSubmit (command : String) (st : AppState) :
    AppState × SubmitResult :=
  if jsTrim command = "" ∨ st.activeSessionId = "" then (st, SubmitResult.noop)
  else if jsTrim command = "clear" then
    ({ clearTerminal st with currentCommand := "" }, SubmitResult.cleared)
  else
    (submitState command st, SubmitResult.pending st.activeSessionId command)

/-- Outcome of the awaited `fetch('/api/execute', ...)` call: a parsed JSON
body of a 2xx response (fields default to `""` when absent, matching JS
falsiness of `undefined` and `""`), a non-2xx response (which the source
turns into a thrown `Error` with message `HTTP status: statusText`), an
`AbortError` rejection, or another transport-level rejection. -/
inductive FetchOutcome where
  | ok (error stdout stderr : String)
  | httpError (status : Nat) (statusText : String)
  | aborted
  | networkError (msg : String)
deriving DecidableEq, Repr

/-- Resumption phase of source `executeCommand`: the result handling after
the `await`, started with the session id captured at submission time.  On
`AbortError` the source returns early, so neither the busy flag nor the
controller ref is touched by this phase; in every other case the result
entries are appended, the busy flag cleared, and the ref set to null. -/
def executeCommandResume (sid : String) (outcome : FetchOutcome)
    (st : AppState) : AppState :=
  match outcome with
  | FetchOutcome.aborted => st
  | FetchOutcome.ok error stdout stderr =>
    let st1 :=
      if error ≠ "" then
        updateSessionHistory sid { type := EntryType.error, content := error } st
      else if stdout ≠ "" ∨ stderr ≠ "" then
        let sta :=
          if stdout ≠ "" then
            updateSessionHistory sid { type := EntryType.output, content := stdout } st
          else st
        if stderr ≠ "" then
          updateSessionHistory sid { type := EntryType.error, content := stderr } sta
        else sta
      else st
    { st1 with isLoading := false, abortController := none }
  | FetchOutcome.httpError status statusText =>
    let st1 := updateSessionHistory sid
      { type := EntryType.error,
        content := "Failed to execute command: HTTP " ++ toString status ++ ": "
          ++ statusText } st
    { st1 with isLoading := false, abortController := none }
  | FetchOutcome.networkError msg =>
    let st1 := updateSessionHistory sid
      { type := EntryType.error, content := "Failed to execute command: " ++ msg } st
    { st1 with isLoading := false, abortController := none }

/-- What the execution service/transport would deliver for a request that
is not aborted by the client. -/
inductive ServiceResult where
  | ok (error stdout stderr : String)
  | httpError (status : Nat) (statusText : String)
  | networkError (msg : String)
deriving DecidableEq, Repr

/-- Injection of a service result into a fetch outcome. -/
def ServiceResult.toOutcome : ServiceResult → FetchOutcome
  | ServiceResult.ok e so se => FetchOutcome.ok e so se
  | ServiceResult.httpError n t => FetchOutcome.httpError n t
  | ServiceResult.networkError m => FetchOutcome.networkError m

/-- One full lifecycle of a submitted command: submit; if the user cancels
before the service responds, run `cancelCommand` and resume the awaited
fetch with an `AbortError` rejection (the browser guarantee for an
aborted request); otherwise resume with the service's own result.  The
resumption uses the session id captured at submission time. -/
def runCommand (st : AppState) (command : String) (cancelled : Bool)
    (r : ServiceResult) : AppState :=
  match executeCommandSubmit command st with
  | (st1, SubmitResult.pending sid _) =>
    if cancelled then
      executeCommandResume sid FetchOutcome.aborted (cancelCommand st1)
    else
      executeCommandResume sid r.toOutcome st1
  | (st1, _) => st1

/-- Lifecycle with a tab switch while the request is in flight: submit on
the current active session, set the active session id to `b`
(`setActiveSessionId(b)`), then let the response arrive.  No
cancellation is involved. -/
def runCommandWithSwitch (st : AppState) (command : String) (b : String)
    (r : ServiceResult) : AppState :=
  match executeCommandSubmit command st with
  | (st1, SubmitResult.pending sid _) =>
    executeCommandResume sid r.toOutcome { st1 with activeSessionId := b }
  | (st1, _) => st1

/-- Source `createNewTab()`, with `Date.now()` made an explicit input
`now`: id is the decimal string of the clock value, name is
`"Terminal " + (sessions.length + 1)`, the session is appended with empty
history and made active. -/
def createNewTab (now : Nat) (st : AppState) : AppState :=
  let newId := toString now
  let newSession : TerminalSession :=
    { id := newId, name := "Terminal " ++ toString (st.sessions.length + 1),
      history := [] }
  { st with sessions := st.sessions ++ [newSession], activeSessionId := newId }

/-- Source `closeTab(sessionId)`: refuse when only one session remains;
otherwise drop the matching session, and when it was the active one make
the first remaining session active (empty string when none remain). -/
def closeTab (sessionId : String) (st : AppState) : AppState :=
  if st.sessions.length = 1 then st
  else
    let newSessions := st.sessions.filter (fun s => s.id != sessionId)
    let newActive :=
      if sessionId = st.activeSessionId then
        match newSessions.head? with
        | some s => s.id
        | none => ""
      else st.activeSessionId
    { st with sessions := newSessions, activeSessionId := newActive }

/-- The bootstrap session created by the load effect when no durable state
exists: `{ id: '1', name: 'Terminal 1', history: [] }`. -/
def initialSession : TerminalSession :=
  { id := "1", name := "Terminal 1", history := [] }

/-- Result of the load-sessions effect: the restored session collection and
active id, or an uncaught exception escaping the effect. -/
inductive RestoreResult where
  | ok (sessions : List TerminalSession) (activeId : String)
  | crashed
deriving DecidableEq, Repr

/-- Source load-sessions `useEffect`: `savedSessions` and `savedActiveTab`
are the two `localStorage.getItem` results (`none` models `null`);
`jsonParse` models `JSON.parse` restricted to this payload shape, with
`none` meaning the parse throws.  The source calls `JSON.parse` with no
try/catch, so a parse failure escapes the effect (`crashed`).  The saved
active tab is used only when truthy and present among the parsed
sessions; otherwise the first parsed session (if any) becomes active;
with no saved data the single default session is synthesized. -/
def restoreState (savedSessions : Option String) (savedActiveTab : Option String)
    (jsonParse : String → Option (List TerminalSession)) : RestoreResult :=
  match savedSessions with
  | none => RestoreResult.ok [initialSession] "1"
  | some raw =>
    match jsonParse raw with
    | none => RestoreResult.crashed
    | some parsedSessions =>
      let tab := savedActiveTab.getD ""
      let active :=
        if tab ≠ "" ∧ parsedSessions.any (fun s => s.id == tab) then tab
        else
          match parsedSessions.head? with
          | some s => s.id
          | none => ""
      RestoreResult.ok parsedSessions active

/-- Source `sessions.find(s => s.id === activeSessionId)`, generalized to
any id: the first session in the collection with the given id. -/
def getSession (sid : String) (st : AppState) : Option TerminalSession :=
  st.sessions.find? (fun s => s.id == sid)

/-- The scrollback entries one full command lifecycle contributes after the
`command` entry, as a closed form: a lone `^C` on cancellation; on a
service-reported error just that error; on success an output entry for
non-empty stdout then an error entry for non-empty stderr; on transport
failure one normalized error entry. -/
def runEntries (cancelled : Bool) (r : ServiceResult) : List TerminalEntry :=
  if cancelled then [{ type := EntryType.error, content := "^C" }]
  else
    match r with
    | ServiceResult.ok e so se =>
      if e ≠ "" then [{ type := EntryType.error, content := e }]
      else
        (if so ≠ "" then [{ type := EntryType.output, content := so }] else [])
          ++ (if se ≠ "" then [{ type := EntryType.error, content := se }] else [])
    | ServiceResult.httpError n t =>
      [{ type := EntryType.error,
         content := "Failed to execute command: HTTP " ++ toString n ++ ": " ++ t }]
    | ServiceResult.networkError m =>
      [{ type := EntryType.error, content := "Failed to execute command: " ++ m }]

/-- A one-session state as produced by the first-run bootstrap, used for
concrete evaluations. -/
def bootState : AppState :=
  { sessions := [initialSession], activeSessionId := "1", currentCommand := "",
    isLoading := false, commandHistory := [], historyIndex := -1,
    abortController := none }

/-- A two-session state used for concrete evaluations. -/
def twoSessionState : AppState :=
  { sessions := [initialSession,
      { id := "2", name := "Terminal 2", history := [] }],
    activeSessionId := "1", currentCommand := "", isLoading := false,
    commandHistory := [], historyIndex := -1, abortController := none }

/-! ## Helper lemmas -/

theorem find?_map_update (f : TerminalSession → TerminalSession)
    (hf : ∀ s, (f s).id = s.id) (l : List TerminalSession) (i : String) :
    (l.map (fun s => if s.id == i then f s else s)).find?
      (fun s => s.id == i) =
    (l.find? (fun s => s.id == i)).map f := by
  induction l with
  | nil => rfl
  | cons a t ih =>
    cases h : (a.id == i) with
    | true =>
      have hfa : (((f a).id == i) = true) := by rw [hf a]; exact h
      have L1 : List.find? (fun s => s.id == i)
          (f a :: t.map (fun s => if s.id == i then f s else s)) = some (f a) :=
        List.find?_cons_of_pos _ hfa
      have L2 : List.find? (fun s => s.id == i) (a :: t) = some a :=
        List.find?_cons_of_pos _ h
      rw [List.map_cons, if_pos h, L1, L2, Option.map_some']
    | false =>
      have hne : ¬ ((a.id == i) = true) := by simp [h]
      have L1 : List.find? (fun s => s.id == i)
          (a :: t.map (fun s => if s.id == i then f s else s)) =
          List.find? (fun s => s.id == i)
            (t.map (fun s => if s.id == i then f s else s)) :=
        List.find?_cons_of_neg _ hne
      have L2 : List.find? (fun s => s.id == i) (a :: t) =
          List.find? (fun s => s.id == i) t :=
        List.find?_cons_of_neg _ hne
      rw [List.map_cons, if_neg hne, L1, L2, ih]

theorem find?_map_update_ne (f : TerminalSession → TerminalSession)
    (hf : ∀ s, (f s).id = s.id) (l : List TerminalSession) (i j : String)
    (hij : j ≠ i) :
    (l.map (fun s => if s.id == i then f s else s)).find?
      (fun s => s.id == j) =
    l.find? (fun s => s.id == j) := by
  induction l with
  | nil => rfl
  | cons a t ih =>
    cases h : (a.id == i) with
    | true =>
      have hai : a.id = i := by simpa using h
      have hj : ¬ (((f a).id == j) = true) := by
        rw [hf a, hai]
        simp [Ne.symm hij]
      have hj2 : ¬ ((a.id == j) = true) := by
        rw [hai]
        simp [Ne.symm hij]
      have L1 : List.find? (fun s => s.id == j)
          (f a :: t.map (fun s => if s.id == i then f s else s)) =
          List.find? (fun s => s.id == j)
            (t.map (fun s => if s.id == i then f s else s)) :=
        List.find?_cons_of_neg _ hj
      have L2 : List.find? (fun s => s.id == j) (a :: t) =
          List.find? (fun s => s.id == j) t :=
        List.find?_cons_of_neg _ hj2
      rw [List.map_cons, if_pos h, L1, L2, ih]
    | false =>
      have hne : ¬ ((a.id == i) = true) := by simp [h]
      cases hj : (a.id == j) with
      | true =>
        have L1 : List.find? (fun s => s.id == j)
            (a :: t.map (fun s => if s.id == i then f s else s)) = some a :=
          List.find?_cons_of_pos _ hj
        have L2 : List.find? (fun s => s.id == j) (a :: t) = some a :=
          List.find?_cons_of_pos _ hj
        rw [List.map_cons, if_neg hne, L1, L2]
      | false =>
        have hjne : ¬ ((a.id == j) = true) := by simp [hj]
        have L1 : List.find? (fun s => s.id == j)
            (a :: t.map (fun s => if s.id == i then f s else s)) =
            List.find? (fun s => s.id == j)
              (t.map (fun s => if s.id == i then f s else s)) :=
          List.find?_cons_of_neg _ hjne
        have L2 : List.find? (fun s => s.id == j) (a :: t) =
            List.find? (fun s => s.id == j) t :=
          List.find?_cons_of_neg _ hjne
        rw [List.map_cons, if_neg hne, L1, L2, ih]

theorem getSession_update_same (sid : String) (e : TerminalEntry)
    (st : AppState) :
    getSession sid (updateSessionHistory sid e st) =
    (getSession sid st).map (fun s => { s with history := s.history ++ [e] }) := by
  simpa [getSession, updateSessionHistory] using
    find?_map_update (fun s => { s with history := s.history ++ [e] })
      (fun _ => rfl) st.sessions sid

theorem getSession_update_ne (sid j : String) (e : TerminalEntry)
    (st : AppState) (h : j ≠ sid) :
    getSession j (updateSessionHistory sid e st) = getSession j st := by
  simpa [getSession, updateSessionHistory] using
    find?_map_update_ne (fun s => { s with history := s.history ++ [e] })
      (fun _ => rfl) st.sessions sid j h

theorem executeCommandSubmit_eq_pending (command : String) (st : AppState)
    (h1 : jsTrim command ≠ "") (h2 : jsTrim command ≠ "clear")
    (h3 : st.activeSessionId ≠ "") :
    executeCommandSubmit command st =
      (submitState command st, SubmitResult.pending st.activeSessionId command) := by
  unfold executeCommandSubmit
  rw [if_neg (not_or.mpr ⟨h1, h3⟩), if_neg h2]

theorem runCommand_false_eq (st : AppState) (command : String) (r : ServiceResult)
    (h1 : jsTrim command ≠ "") (h2 : jsTrim command ≠ "clear")
    (h3 : st.activeSessionId ≠ "") :
    runCommand st command false r =
      executeCommandResume st.activeSessionId r.toOutcome
        (submitState command st) := by
  unfold runCommand
  rw [executeCommandSubmit_eq_pending command st h1 h2 h3]
  rfl

theorem runCommand_true_eq (st : AppState) (command : String) (r : ServiceResult)
    (h1 : jsTrim command ≠ "") (h2 : jsTrim command ≠ "clear")
    (h3 : st.activeSessionId ≠ "") :
    runCommand st command true r = cancelCommand (submitState command st) := by
  unfold runCommand
  rw [executeCommandSubmit_eq_pending command st h1 h2 h3]
  rfl

theorem getSession_submitState_active (command : String) (st : AppState) :
    getSession st.activeSessionId (submitState command st) =
    (getSession st.activeSessionId st).map
      (fun s => { s with history := s.history ++
        [{ type := EntryType.command, content := "$ " ++ command }] }) :=
  getSession_update_same st.activeSessionId _ _

theorem getSession_submitState_other (command : String) (st : AppState)
    (j : String) (h : j ≠ st.activeSessionId) :
    getSession j (submitState command st) = getSession j st :=
  getSession_update_ne st.activeSessionId j _ _ h

theorem getSession_cancelCommand (st : AppState) (sid : String)
    (hsid : st.activeSessionId = sid) :
    getSession sid (cancelCommand st) =
    (getSession sid st).map
      (fun s => { s with history := s.history ++
        [{ type := EntryType.error, content := "^C" }] }) := by
  subst hsid
  unfold cancelCommand
  cases hc : st.abortController with
  | none => exact getSession_update_same st.activeSessionId _ st
  | some b =>
    exact getSession_update_same st.activeSessionId _
      { st with abortController := some true }

theorem getSession_cancelCommand_other (st : AppState) (j : String)
    (h : j ≠ st.activeSessionId) :
    getSession j (cancelCommand st) = getSession j st := by
  unfold cancelCommand
  cases hc : st.abortController with
  | none => exact getSession_update_ne st.activeSessionId j _ st h
  | some b =>
    exact getSession_update_ne st.activeSessionId j _
      { st with abortController := some true } h

theorem getSession_flags (sid : String) (st : AppState) (b : Bool)
    (ob : Option Bool) :
    getSession sid { st with isLoading := b, abortController := ob } =
    getSession sid st := rfl

theorem runEntries_cancelled (r : ServiceResult) :
    runEntries true r = [{ type := EntryType.error, content := "^C" }] := rfl

theorem runEntries_ok_error (e so se : String) (he : e ≠ "") :
    runEntries false (ServiceResult.ok e so se) =
      [{ type := EntryType.error, content := e }] := by
  simp [runEntries, he]

theorem runEntries_ok_output (e so se : String) (he : e = "") :
    runEntries false (ServiceResult.ok e so se) =
      (if so ≠ "" then [{ type := EntryType.output, content := so }] else [])
        ++ (if se ≠ "" then [{ type := EntryType.error, content := se }] else []) := by
  subst he
  simp [runEntries]

theorem getSession_resume_run (sid : String) (r : ServiceResult) (st : AppState) :
    getSession sid (executeCommandResume sid r.toOutcome st) =
    (getSession sid st).map
      (fun s => { s with history := s.history ++ runEntries false r }) := by
  cases r with
  | httpError n t => exact getSession_update_same sid _ st
  | networkError m => exact getSession_update_same sid _ st
  | ok e so se =>
    by_cases he : e ≠ ""
    · simp only [ServiceResult.toOutcome, executeCommandResume]
      rw [if_pos he, runEntries_ok_error e so se he, getSession_flags]
      exact getSession_update_same sid _ st
    · have he0 : e = "" := not_not.mp he
      simp only [ServiceResult.toOutcome, executeCommandResume]
      rw [if_neg he, runEntries_ok_output e so se he0]
      by_cases hso : so ≠ ""
      · by_cases hse : se ≠ ""
        · rw [if_pos (Or.inl hso), if_pos hso, if_pos hse, if_pos hso,
            if_pos hse, getSession_flags,
            getSession_update_same sid _ (updateSessionHistory sid
              { type := EntryType.output, content := so } st),
            getSession_update_same sid _ st]
          cases hgs : getSession sid st <;> simp
        · rw [if_pos (Or.inl hso), if_pos hso, if_neg hse, if_pos hso,
            if_neg hse, getSession_flags, getSession_update_same sid _ st]
          cases hgs : getSession sid st <;> simp
      · by_cases hse : se ≠ ""
        · rw [if_pos (Or.inr hse), if_neg hso, if_pos hse, if_neg hso,
            if_pos hse, getSession_flags, getSession_update_same sid _ st]
          cases hgs : getSession sid st <;> simp
        · rw [if_neg (by push_neg; push_neg at hso hse; exact ⟨hso, hse⟩),
            if_neg hso, if_neg hse, getSession_flags]
          cases hgs : getSession sid st <;> simp [hgs]

theorem getSession_resume_other (sid j : String) (o : FetchOutcome)
    (st : AppState) (h : j ≠ sid) :
    getSession j (executeCommandResume sid o st) = getSession j st := by
  cases o with
  | aborted => rfl
  | httpError n t => exact getSession_update_ne sid j _ st h
  | networkError m => exact getSession_update_ne sid j _ st h
  | ok e so se =>
    by_cases he : e ≠ ""
    · simp only [executeCommandResume]
      rw [if_pos he, getSession_flags]
      exact getSession_update_ne sid j _ st h
    · simp only [executeCommandResume]
      rw [if_neg he]
      by_cases hso : so ≠ ""
      · by_cases hse : se ≠ ""
        · rw [if_pos (Or.inl hso), if_pos hso, if_pos hse, getSession_flags,
            getSession_update_ne sid j _ _ h, getSession_update_ne sid j _ _ h]
        · rw [if_pos (Or.inl hso), if_pos hso, if_neg hse, getSession_flags,
            getSession_update_ne sid j _ _ h]
      · by_cases hse : se ≠ ""
        · rw [if_pos (Or.inr hse), if_neg hso, if_pos hse, getSession_flags,
            getSession_update_ne sid j _ _ h]
        · rw [if_neg (by push_neg; push_neg at hso hse; exact ⟨hso, hse⟩),
            getSession_flags]

theorem resume_abortController (sid : String) (r : ServiceResult)
    (st : AppState) :
    (executeCommandResume sid r.toOutcome st).abortController = none := by
  cases r <;> rfl

theorem cancelCommand_abortController (st : AppState) (b : Bool)
    (hc : st.abortController = some b) :
    (cancelCommand st).abortController = some true := by
  unfold cancelCommand
  rw [hc]
  rfl

/-! ## Claim theorems -/

/-- C1: the load effect parses the durable session payload with no
exception handling, so an unparsable payload makes the restore crash
instead of falling back to the single-default-session bootstrap; the
bootstrap (one session with id `1`, name `Terminal 1`, empty history,
made active) is reached only when no durable state exists at all.
Evaluated at the failing input: the stored string with a lone opening brace whose parse
throws. -/
theorem C1_restore_crash :
    restoreState (some "\x7b") (some "1") (fun _ => none) = RestoreResult.crashed ∧
    restoreState (some "\x7b") (some "1") (fun _ => none) ≠
      RestoreResult.ok [initialSession] "1" ∧
    restoreState none (some "1") (fun _ => none) =
      RestoreResult.ok [initialSession] "1" := by
  refine ⟨rfl, ?_, rfl⟩
  decide

/-- C2 (amended): the in-flight token is cleared when the command run
completes or fails, but after a user cancellation the aborted controller
stays referenced (the early return on `AbortError` skips the clearing),
so the token is `some true` rather than `none` at the end of a cancelled
lifecycle. -/
theorem C2_token_lifecycle (st : AppState) (command : String) (r : ServiceResult)
    (h1 : jsTrim command ≠ "") (h2 : jsTrim command ≠ "clear")
    (h3 : st.activeSessionId ≠ "") :
    (runCommand st command false r).abortController = none ∧
    (runCommand st command true r).abortController = some true := by
  constructor
  · rw [runCommand_false_eq st command r h1 h2 h3]
    exact resume_abortController st.activeSessionId r (submitState command st)
  · rw [runCommand_true_eq st command r h1 h2 h3]
    exact cancelCommand_abortController (submitState command st) false rfl

/-- C2 counterexample: a concrete cancelled lifecycle that has fully ended
(busy flag back to false, aborted request resolved) with the in-flight
token still set, refuting the claim that the token is cleared in every
terminal case including user cancellation. -/
theorem C2_counterexample :
    (runCommand bootState "ls" true
        (ServiceResult.ok "" "file.txt" "")).abortController = some true ∧
    (runCommand bootState "ls" true
        (ServiceResult.ok "" "file.txt" "")).abortController ≠ none ∧
    (runCommand bootState "ls" true
        (ServiceResult.ok "" "file.txt" "")).isLoading = false := by
  refine ⟨rfl, ?_, rfl⟩
  decide

theorem C2_witness :
    (runCommand bootState "ls" false
        (ServiceResult.ok "" "hello" "")).abortController = none ∧
    (runCommand bootState "ls" true
        (ServiceResult.ok "" "hello" "")).abortController = some true :=
  C2_token_lifecycle bootState "ls" (ServiceResult.ok "" "hello" "")
    (by decide) (by decide) (by decide)

/-- C3: submitting a non-empty, non-`clear` command on the active session
and cancelling before the service responds leaves the issuing session's
history extended by exactly one command entry followed by exactly one
`^C` error entry, and the late resolution of the aborted call (whatever
the service would have answered) appends nothing further. -/
theorem C3_cancellation_race (st : AppState) (command : String)
    (r : ServiceResult) (s : TerminalSession)
    (h1 : jsTrim command ≠ "") (h2 : jsTrim command ≠ "clear")
    (h3 : st.activeSessionId ≠ "")
    (h4 : getSession st.activeSessionId st = some s) :
    getSession st.activeSessionId (runCommand st command true r) =
      some { s with history := s.history ++
        [{ type := EntryType.command, content := "$ " ++ command },
         { type := EntryType.error, content := "^C" }] } := by
  rw [runCommand_true_eq st command r h1 h2 h3,
    getSession_cancelCommand (submitState command st) st.activeSessionId rfl,
    getSession_submitState_active, h4]
  simp

theorem C3_witness :
    getSession "1" (runCommand bootState "ls" true
        (ServiceResult.ok "" "late" "")) =
      some { id := "1", name := "Terminal 1", history :=
        [{ type := EntryType.command, content := "$ ls" },
         { type := EntryType.error, content := "^C" }] } :=
  C3_cancellation_race bootState "ls" (ServiceResult.ok "" "late" "")
    initialSession (by decide) (by decide) (by decide) rfl

/-- C5 (amended): a non-empty, non-`clear` submission appends exactly one
command entry immediately, and the finished lifecycle extends the issuing
session's history by that command entry followed by the entries of
exactly one terminal outcome — at most two entries: one error entry on a
service-reported error or transport failure, one `^C` entry on
cancellation, an output entry for non-empty stdout and an error entry for
non-empty stderr on success, hence no outcome entry at all when a
successful response has empty stdout and stderr. -/
theorem C5_command_outcome (st : AppState) (command : String) (cancelled : Bool)
    (r : ServiceResult) (s : TerminalSession)
    (h1 : jsTrim command ≠ "") (h2 : jsTrim command ≠ "clear")
    (h3 : st.activeSessionId ≠ "")
    (h4 : getSession st.activeSessionId st = some s) :
    getSession st.activeSessionId (executeCommandSubmit command st).1 =
      some { s with history := s.history ++
        [{ type := EntryType.command, content := "$ " ++ command }] } ∧
    getSession st.activeSessionId (runCommand st command cancelled r) =
      some { s with history := s.history ++
        ({ type := EntryType.command, content := "$ " ++ command }
          :: runEntries cancelled r) } ∧
    (runEntries cancelled r).length ≤ 2 := by
  refine ⟨?_, ?_, ?_⟩
  · rw [executeCommandSubmit_eq_pending command st h1 h2 h3,
      getSession_submitState_active, h4]
    rfl
  · cases cancelled with
    | false =>
      rw [runCommand_false_eq st command r h1 h2 h3,
        getSession_resume_run st.activeSessionId r (submitState command st),
        getSession_submitState_active, h4]
      simp
    | true =>
      rw [runCommand_true_eq st command r h1 h2 h3,
        getSession_cancelCommand (submitState command st) st.activeSessionId rfl,
        getSession_submitState_active, h4, runEntries_cancelled]
      simp
  · cases cancelled with
    | false =>
      cases r with
      | ok e so se =>
        by_cases he : e ≠ ""
        · simp [runEntries_ok_error e so se he]
        · rw [runEntries_ok_output e so se (not_not.mp he)]
          by_cases hso : so ≠ "" <;> by_cases hse : se ≠ "" <;>
            simp [hso, hse]
      | httpError n t => simp [runEntries]
      | networkError m => simp [runEntries]
    | true => simp [runEntries_cancelled]

/-- C5 counterexample: submitting `true` and receiving a successful
response with empty stdout and empty stderr ends the lifecycle (busy flag
cleared) with the command entry followed by zero outcome entries, so the
claim that exactly one terminal outcome entry eventually follows every
non-`clear` submission fails on the code. -/
theorem C5_counterexample :
    (runCommand bootState "true" false (ServiceResult.ok "" "" "")).sessions =
      [{ id := "1", name := "Terminal 1",
         history := [{ type := EntryType.command, content := "$ true" }] }] ∧
    (runCommand bootState "true" false (ServiceResult.ok "" "" "")).isLoading =
      false := by
  constructor <;> rfl

theorem C5_witness :
    getSession "1" (runCommand bootState "ls" false
        (ServiceResult.ok "" "hello" "")) =
      some { id := "1", name := "Terminal 1", history :=
        [{ type := EntryType.command, content := "$ ls" },
         { type := EntryType.output, content := "hello" }] } :=
  (C5_command_outcome bootState "ls" false (ServiceResult.ok "" "hello" "")
    initialSession (by decide) (by decide) (by decide) rfl).2.1

/-- C10: when the parsed response carries a non-empty `error` field, the
resumption appends exactly the one error entry with that payload to the
session that issued the command — any stdout or stderr in the same
response is discarded — and no other session changes. -/
theorem C10_error_precedence (st : AppState) (sid error stdout stderr : String)
    (s : TerminalSession) (h1 : error ≠ "")
    (h4 : getSession sid st = some s) :
    getSession sid (executeCommandResume sid
        (FetchOutcome.ok error stdout stderr) st) =
      some { s with history := s.history ++
        [{ type := EntryType.error, content := error }] } ∧
    (∀ j, j ≠ sid →
      getSession j (executeCommandResume sid
          (FetchOutcome.ok error stdout stderr) st) = getSession j st) := by
  constructor
  · have h := getSession_resume_run sid (ServiceResult.ok error stdout stderr) st
    rw [runEntries_ok_error error stdout stderr h1] at h
    rw [show (FetchOutcome.ok error stdout stderr) =
        (ServiceResult.ok error stdout stderr).toOutcome from rfl, h, h4]
    rfl
  · intro j hj
    exact getSession_resume_other sid j _ st hj

theorem C10_witness :
    getSession "1" (executeCommandResume "1"
        (FetchOutcome.ok "boom" "ignored-out" "ignored-err") twoSessionState) =
      some { id := "1", name := "Terminal 1", history :=
        [{ type := EntryType.error, content := "boom" }] } ∧
    getSession "2" (executeCommandResume "1"
        (FetchOutcome.ok "boom" "ignored-out" "ignored-err") twoSessionState) =
      getSession "2" twoSessionState := by
  have h := C10_error_precedence twoSessionState "1" "boom" "ignored-out"
    "ignored-err" initialSession (by decide) rfl
  exact ⟨h.1, h.2 "2" (by decide)⟩

/-- C4: switching the active session to `b` while the request is in
flight does not redirect the response — the outcome entries land in the
history of the session that was active at submission time (its id was
captured by the closure), and session `b` keeps its history. -/
theorem C4_session_switch (st : AppState) (command b : String)
    (r : ServiceResult) (sA sB : TerminalSession)
    (h1 : jsTrim command ≠ "") (h2 : jsTrim command ≠ "clear")
    (h3 : st.activeSessionId ≠ "")
    (h4 : getSession st.activeSessionId st = some sA)
    (h5 : b ≠ st.activeSessionId)
    (h6 : getSession b st = some sB) :
    getSession st.activeSessionId (runCommandWithSwitch st command b r) =
      some { sA with history := sA.history ++
        ({ type := EntryType.command, content := "$ " ++ command }
          :: runEntries false r) } ∧
    getSession b (runCommandWithSwitch st command b r) = some sB := by
  have heq : runCommandWithSwitch st command b r =
      executeCommandResume st.activeSessionId r.toOutcome
        { submitState command st with activeSessionId := b } := by
    unfold runCommandWithSwitch
    rw [executeCommandSubmit_eq_pending command st h1 h2 h3]
  constructor
  · rw [heq, getSession_resume_run st.activeSessionId r
      { submitState command st with activeSessionId := b },
      show getSession st.activeSessionId
          { submitState command st with activeSessionId := b } =
        getSession st.activeSessionId (submitState command st) from rfl,
      getSession_submitState_active, h4]
    simp
  · rw [heq, getSession_resume_other st.activeSessionId b r.toOutcome _ h5,
      show getSession b { submitState command st with activeSessionId := b } =
        getSession b (submitState command st) from rfl,
      getSession_submitState_other command st b h5, h6]

theorem C4_witness :
    getSession "1" (runCommandWithSwitch twoSessionState "ls" "2"
        (ServiceResult.ok "" "out" "")) =
      some { id := "1", name := "Terminal 1", history :=
        [{ type := EntryType.command, content := "$ ls" },
         { type := EntryType.output, content := "out" }] } ∧
    getSession "2" (runCommandWithSwitch twoSessionState "ls" "2"
        (ServiceResult.ok "" "out" "")) =
      some { id := "2", name := "Terminal 2", history := [] } :=
  C4_session_switch twoSessionState "ls" "2" (ServiceResult.ok "" "out" "")
    initialSession { id := "2", name := "Terminal 2", history := [] }
    (by decide) (by decide) (by decide) rfl (by decide) rfl

/-- C6: submitting text that trims to the literal `clear` while a session
is active ends in the local `cleared` early return (nothing is sent to
the execution service and the in-flight token is untouched), empties the
active session's history, keeps every other session exactly as it was,
and appends no entry anywhere (the id collection is unchanged). -/
theorem C6_clear_command (st : AppState) (text : String)
    (h1 : st.activeSessionId ≠ "") (h2 : jsTrim text = "clear") :
    (executeCommandSubmit text st).2 = SubmitResult.cleared ∧
    (executeCommandSubmit text st).1.abortController = st.abortController ∧
    (∀ s, s ∈ (executeCommandSubmit text st).1.sessions →
      s.id = st.activeSessionId → s.history = []) ∧
    (∀ s, s ∈ st.sessions → s.id ≠ st.activeSessionId →
      s ∈ (executeCommandSubmit text st).1.sessions) ∧
    (executeCommandSubmit text st).1.sessions.map TerminalSession.id =
      st.sessions.map TerminalSession.id := by
  have hne : jsTrim text ≠ "" := by rw [h2]; decide
  have hred : executeCommandSubmit text st =
      ({ clearTerminal st with currentCommand := "" }, SubmitResult.cleared) := by
    unfold executeCommandSubmit
    rw [if_neg (not_or.mpr ⟨hne, h1⟩), if_pos h2]
  refine ⟨by rw [hred], by rw [hred]; rfl, ?_, ?_, ?_⟩
  · rw [hred]
    intro s hs hsid
    have hs' : s ∈ st.sessions.map (fun session =>
        if session.id == st.activeSessionId
        then { session with history := [] } else session) := hs
    rcases List.mem_map.mp hs' with ⟨a, ha, rfl⟩
    cases hc : (a.id == st.activeSessionId) with
    | true => rfl
    | false =>
      have hcne : ¬ ((a.id == st.activeSessionId) = true) := by simp [hc]
      rw [if_neg hcne] at hsid
      rw [hsid] at hc
      simp at hc
  · rw [hred]
    intro s hs hsid
    have hcne : ¬ ((s.id == st.activeSessionId) = true) := by simpa using hsid
    have hmem : s ∈ st.sessions.map (fun session =>
        if session.id == st.activeSessionId
        then { session with history := [] } else session) :=
      List.mem_map.mpr ⟨s, hs, if_neg hcne⟩
    exact hmem
  · rw [hred]
    show (st.sessions.map (fun session =>
        if session.id == st.activeSessionId
        then { session with history := [] } else session)).map
        TerminalSession.id = st.sessions.map TerminalSession.id
    rw [List.map_map]
    apply List.map_congr_left
    intro a ha
    show (if a.id == st.activeSessionId
      then { a with history := ([] : List TerminalEntry) } else a).id = a.id
    cases hc : (a.id == st.activeSessionId) with
    | true => rfl
    | false => rfl

theorem C6_witness :
    (executeCommandSubmit " clear " twoSessionState).2 = SubmitResult.cleared ∧
    (∀ s, s ∈ (executeCommandSubmit " clear " twoSessionState).1.sessions →
      s.id = "1" → s.history = []) ∧
    (∀ s, s ∈ twoSessionState.sessions → s.id ≠ "1" →
      s ∈ (executeCommandSubmit " clear " twoSessionState).1.sessions) := by
  have h := C6_clear_command twoSessionState " clear " (by decide) (by decide)
  exact ⟨h.1, h.2.2.1, h.2.2.2.1⟩

theorem length_filter_ne_of_nodup (l : List String) (c : String)
    (h1 : l.Nodup) (h2 : c ∈ l) :
    (l.filter (fun x => x != c)).length + 1 = l.length := by
  induction l with
  | nil => cases h2
  | cons a t ih =>
    rcases List.mem_cons.mp h2 with rfl | hmem
    · have hnotin : c ∉ t := (List.nodup_cons.mp h1).1
      have hfil : t.filter (fun x => x != c) = t := by
        apply List.filter_eq_self.mpr
        intro x hx
        have hxc : x ≠ c := fun hxe => hnotin (hxe ▸ hx)
        simpa using hxc
      have hCC : ¬ ((c != c) = true) := by simp
      have hstep : List.filter (fun x => x != c) (c :: t) =
          List.filter (fun x => x != c) t :=
        List.filter_cons_of_neg hCC
      rw [hstep, hfil, List.length_cons]
    · have hnext := ih (List.nodup_cons.mp h1).2 hmem
      by_cases hac : a = c
      · exact absurd hmem (hac ▸ (List.nodup_cons.mp h1).1)
      · have ha : ((a != c) = true) := by simpa using hac
        have hstep : List.filter (fun x => x != c) (a :: t) =
            a :: List.filter (fun x => x != c) t :=
          List.filter_cons_of_pos ha
        rw [hstep]
        simp only [List.length_cons]
        omega

/-- C7: the history push inserts the command at the front, removes any
prior occurrence (so a repeated push keeps the length and moves the
command to the front), keeps the stored list duplicate-free, caps it at
50 by dropping from the old end, and introduces no value other than the
pushed command. -/
theorem C7_push_history (c : String) (l : List String)
    (h1 : l.Nodup) (h2 : l.length ≤ 50) :
    (pushHistory c l).head? = some c ∧
    (pushHistory c l).Nodup ∧
    (pushHistory c l).length ≤ 50 ∧
    (c ∈ l → (pushHistory c l).length = l.length) ∧
    (c ∉ l → (pushHistory c l).length = min (l.length + 1) 50) ∧
    (c ∉ l → pushHistory c l = (c :: l).take 50) ∧
    (∀ x ∈ pushHistory c l, x = c ∨ x ∈ l) := by
  refine ⟨rfl, ?_, List.length_take_le _ _, ?_, ?_, ?_, ?_⟩
  · have hfil : (l.filter (fun x => x != c)).Nodup := h1.filter _
    have hnot : c ∉ l.filter (fun x => x != c) := by
      intro hmem
      have := List.of_mem_filter hmem
      simp at this
    exact (List.take_sublist _ _).nodup (List.nodup_cons.mpr ⟨hnot, hfil⟩)
  · intro hmem
    unfold pushHistory
    rw [List.length_take, List.length_cons,
      length_filter_ne_of_nodup l c h1 hmem]
    exact Nat.min_eq_right h2
  · intro hnmem
    unfold pushHistory
    have hfil : l.filter (fun x => x != c) = l := by
      apply List.filter_eq_self.mpr
      intro x hx
      have hxc : x ≠ c := fun he => hnmem (he ▸ hx)
      simpa using hxc
    rw [hfil, List.length_take, List.length_cons, Nat.min_comm]
  · intro hnmem
    unfold pushHistory
    have hfil : l.filter (fun x => x != c) = l := by
      apply List.filter_eq_self.mpr
      intro x hx
      have hxc : x ≠ c := fun he => hnmem (he ▸ hx)
      simpa using hxc
    rw [hfil]
  · intro x hx
    have hx' := (List.take_sublist _ _).subset hx
    rcases List.mem_cons.mp hx' with rfl | hmem
    · exact Or.inl rfl
    · exact Or.inr (List.mem_of_mem_filter hmem)

theorem C7_witness :
    (pushHistory "b" ["a", "b", "c"]).head? = some "b" ∧
    (pushHistory "b" ["a", "b", "c"]).length = 3 := by
  have h := C7_push_history "b" ["a", "b", "c"] (by decide) (by decide)
  exact ⟨h.1, h.2.2.2.1 (by decide)⟩

/-- C8: closing a tab on a one-session collection is a no-op; on a larger
collection it removes exactly the session with the given id (splitting
the collection around it and keeping collection order), shrinking the
length by exactly one, and when the closed session was active the first
remaining session in collection order becomes active, while otherwise
the active pointer is untouched. -/
theorem C8_close_session (st : AppState) (i : String)
    (h2 : (st.sessions.map TerminalSession.id).Nodup)
    (h3 : i ∈ st.sessions.map TerminalSession.id) :
    (st.sessions.length = 1 → closeTab i st = st) ∧
    (1 < st.sessions.length →
      ∃ pre sess post, st.sessions = pre ++ sess :: post ∧ sess.id = i ∧
        (closeTab i st).sessions = pre ++ post ∧
        (closeTab i st).sessions.length + 1 = st.sessions.length ∧
        (i = st.activeSessionId →
          ∃ s0, (closeTab i st).sessions.head? = some s0 ∧
            (closeTab i st).activeSessionId = s0.id) ∧
        (i ≠ st.activeSessionId →
          (closeTab i st).activeSessionId = st.activeSessionId)) := by
  constructor
  · intro hlen
    unfold closeTab
    rw [if_pos hlen]
  · intro hlen
    have hlenne : st.sessions.length ≠ 1 := by omega
    obtain ⟨sess, hsessmem, hsid⟩ : ∃ sess, sess ∈ st.sessions ∧ sess.id = i := by
      rcases List.mem_map.mp h3 with ⟨s, hs, hid⟩
      exact ⟨s, hs, hid⟩
    obtain ⟨pre, post, hsplit⟩ := List.append_of_mem hsessmem
    have hids : ((pre.map TerminalSession.id) ++
        sess.id :: (post.map TerminalSession.id)).Nodup := by
      rw [hsplit] at h2
      simpa using h2
    obtain ⟨hn1, hn2, hdis⟩ := List.nodup_append.mp hids
    have hpre : ∀ x ∈ pre, ((x.id != i) = true) := by
      intro x hx
      have hxid : x.id ∈ pre.map TerminalSession.id :=
        List.mem_map_of_mem _ hx
      have := hdis hxid
      have hne : x.id ≠ sess.id := fun he => this (he ▸ List.mem_cons_self _ _)
      rw [hsid] at hne
      simpa using hne
    have hpost : ∀ x ∈ post, ((x.id != i) = true) := by
      intro x hx
      have hnotin : sess.id ∉ post.map TerminalSession.id :=
        (List.nodup_cons.mp hn2).1
      have hxid : x.id ∈ post.map TerminalSession.id :=
        List.mem_map_of_mem _ hx
      have hne : x.id ≠ i := by
        intro he
        exact hnotin (by rw [hsid]; exact he ▸ hxid)
      simpa using hne
    have hfilter : st.sessions.filter (fun s => s.id != i) = pre ++ post := by
      have hcneg : ¬ ((sess.id != i) = true) := by simp [hsid]
      have hstep : List.filter (fun s => s.id != i) (sess :: post) =
          List.filter (fun s => s.id != i) post :=
        List.filter_cons_of_neg hcneg
      rw [hsplit, List.filter_append, hstep,
        List.filter_eq_self.mpr hpre, List.filter_eq_self.mpr hpost]
    have hsess : (closeTab i st).sessions = pre ++ post := by
      unfold closeTab
      rw [if_neg hlenne]
      exact hfilter
    have hactive : (closeTab i st).activeSessionId =
        (if i = st.activeSessionId then
          (match (pre ++ post).head? with
            | some s => s.id
            | none => "")
          else st.activeSessionId) := by
      unfold closeTab
      rw [if_neg hlenne]
      show (if i = st.activeSessionId then
          (match (st.sessions.filter (fun s => s.id != i)).head? with
            | some s => s.id
            | none => "")
          else st.activeSessionId) = _
      rw [hfilter]
    refine ⟨pre, sess, post, hsplit, hsid, hsess, ?_, ?_, ?_⟩
    · rw [hsess, hsplit]
      simp only [List.length_append, List.length_cons]
      omega
    · intro hia
      have hlen2 : (pre ++ post).length + 1 = st.sessions.length := by
        rw [hsplit]
        simp only [List.length_append, List.length_cons]
        omega
      have hnonnil : (pre ++ post) ≠ [] := by
        intro hnil
        rw [hnil] at hlen2
        simp at hlen2
        omega
      cases hh : (pre ++ post).head? with
      | none => exact absurd (List.head?_eq_none_iff.mp hh) hnonnil
      | some s0 =>
        refine ⟨s0, by rw [hsess]; exact hh, ?_⟩
        rw [hactive, if_pos hia, hh]
    · intro hne
      rw [hactive, if_neg hne]

theorem C8_witness :
    (twoSessionState.sessions.length = 1 →
      closeTab "1" twoSessionState = twoSessionState) ∧
    (closeTab "1" twoSessionState).sessions.length + 1 =
      twoSessionState.sessions.length := by
  obtain ⟨hA, h⟩ := C8_close_session twoSessionState "1" (by decide) (by decide)
  obtain ⟨pre, sess, post, -, -, -, hlen, -, -⟩ := h (by decide)
  exact ⟨hA, hlen⟩

/-- C9 (amended): `createNewTab` appends one new session with id the
decimal string of the clock value read at the call, name
`Terminal (count+1)` where count is the prior collection size, empty
history, and makes it active; the allocated id is distinct from the
existing ids — and id uniqueness of the collection is preserved —
exactly when the clock string differs from every existing id (for
example calls in distinct milliseconds), not unconditionally. -/
theorem C9_create_session (st : AppState) (now : Nat)
    (h1 : toString now ∉ st.sessions.map TerminalSession.id)
    (h2 : (st.sessions.map TerminalSession.id).Nodup) :
    (createNewTab now st).sessions =
      st.sessions ++ [{ id := toString now, name := "Terminal " ++ toString (st.sessions.length + 1), history := [] }] ∧
    ((createNewTab now st).sessions.map TerminalSession.id).Nodup ∧
    (createNewTab now st).activeSessionId = toString now := by
  refine ⟨rfl, ?_, rfl⟩
  have hmap : (createNewTab now st).sessions.map TerminalSession.id =
      st.sessions.map TerminalSession.id ++ [toString now] := by
    show (st.sessions ++ [({ id := toString now, name := "Terminal " ++ toString (st.sessions.length + 1), history := [] } : TerminalSession)]).map TerminalSession.id = _
    rw [List.map_append]
    rfl
  rw [hmap]
  apply List.Nodup.append h2 (List.nodup_singleton _)
  intro x hx hx2
  rw [List.mem_singleton] at hx2
  subst hx2
  exact h1 hx

/-- C9 counterexample: two `createNewTab` calls with the clock returning
the same millisecond value 1000 produce two sessions with the same id
`1000`, so the allocated id is not always distinct from every id already
in the collection and id uniqueness fails. -/
theorem C9_counterexample :
    ((createNewTab 1000 (createNewTab 1000 bootState)).sessions.map
      TerminalSession.id) = ["1", "1000", "1000"] ∧
    ¬ ((createNewTab 1000 (createNewTab 1000 bootState)).sessions.map
      TerminalSession.id).Nodup := by
  refine ⟨rfl, ?_⟩
  decide

theorem C9_witness :
    (createNewTab 1000 bootState).sessions =
      [initialSession, { id := "1000", name := "Terminal 2", history := [] }] ∧
    (createNewTab 1000 bootState).activeSessionId = "1000" := by
  have h := C9_create_session bootState 1000 (by decide) (by decide)
  exact ⟨h.1, h.2.2⟩
